import Mathlib

set_option linter.unusedVariables false

/-!
Shallow embedding of the persistence core of the repository: the class
`Article` in `src/app/models/article.py` together with the storage semantics
of the single PostgreSQL table `articles` that it drives, and the
per-operation connection handling of `src/app/config/database.py`.

Modelling conventions:

* Server timestamps (`CURRENT_TIMESTAMP`) are natural numbers.  Each call
  that executes a timestamp-producing statement receives the server time of
  that statement as an explicit argument `t`.
* `DB` is the visible state of the database: whether the `articles` table
  exists, its rows (in physical insertion order), the next value of the
  `id` serial sequence, and whether the two secondary indexes exist.
* `Env` injects the two failure sources of a call: `connFails` models
  `psycopg2.connect` raising inside `db_config.get_connection`, and
  `execFails` models `cursor.execute` raising for a non-deterministic
  reason (I/O error).  Deterministic statement errors (missing table,
  length or unique-constraint violations) are computed from the state.
* The Python code never passes SQL NULL for `title`, `raw_content` or
  `direct_link` (the constructor defaults them to `""`), so row fields are
  plain strings; the UNIQUE check on `direct_link` therefore always
  compares non-null values, exactly as PostgreSQL would for these rows.
* Each operation returns, besides its Python return value, the new database
  state, how many connections the call opened (`opened`), how many of those
  were still open when the call returned (`leaked`), and whether the
  `except` handler of the operation ran (`excepted`).  A statement that
  raises aborts the uncommitted transaction, so on every `excepted` path
  the database state is unchanged.
-/

/-- An in-memory `Article` instance (`Article.__init__`): `id`,
`created_at`, `updated_at` default to `None`; the three text fields
default to `""`. -/
structure Article where
  id : Option Nat
  title : String
  raw_content : String
  direct_link : String
  created_at : Option Nat
  updated_at : Option Nat
deriving DecidableEq, Repr

/-- A persisted row of the `articles` table. -/
structure Row where
  id : Nat
  title : String
  raw_content : String
  direct_link : String
  created_at : Nat
  updated_at : Nat
deriving DecidableEq, Repr

/-- Visible database state. `nextId` is the state of the `id` serial
sequence; `idxTitle` and `idxLink` record the two secondary indexes. -/
structure DB where
  tableExists : Bool
  rows : List Row
  nextId : Nat
  idxTitle : Bool
  idxLink : Bool
deriving DecidableEq, Repr

/-- Failure injection for one connection/statement sequence. -/
structure Env where
  connFails : Bool
  execFails : Bool
deriving DecidableEq, Repr

/-- The environment in which nothing fails. -/
def okEnv : Env := ⟨false, false⟩

/-- Result of a repository call that does not mutate the receiver. -/
structure Out (α : Type) where
  result : α
  db : DB
  opened : Nat
  leaked : Nat
  excepted : Bool
deriving DecidableEq, Repr

/-- Result of `save` (which also mutates `self`: the article comes back
with the fields the storage layer assigned). -/
structure SaveOut where
  result : Option Nat
  art : Article
  db : DB
  opened : Nat
  leaked : Nat
  excepted : Bool
deriving DecidableEq, Repr

/-- Python truthiness of `self.id` (`if self.id:`): `None` and `0` are
falsy. -/
def truthyId (a : Article) : Bool :=
  match a.id with
  | none => false
  | some n => n != 0

/-- Deterministic reasons the INSERT statement of `_insert` raises:
missing table, `title` over VARCHAR(500), `direct_link` over
VARCHAR(1000), or a UNIQUE violation on `direct_link`. -/
def insertErr (a : Article) (db : DB) : Bool :=
  !db.tableExists || decide (a.title.length > 500) ||
    decide (a.direct_link.length > 1000) ||
    db.rows.any (fun r => r.direct_link == a.direct_link)

/-- Deterministic reasons the UPDATE statement of `_update` raises once a
row with the target id matched: length violations, or a UNIQUE violation
of the new `direct_link` against some other row. -/
def updateErr (a : Article) (i : Nat) (db : DB) : Bool :=
  decide (a.title.length > 500) || decide (a.direct_link.length > 1000) ||
    db.rows.any (fun r => r.id != i && r.direct_link == a.direct_link)

/-- The row `_update` writes over an existing row `r`: the three text
fields from `self`, `updated_at = CURRENT_TIMESTAMP`; `id` and
`created_at` untouched. -/
def updatedRow (a : Article) (t : Nat) (r : Row) : Row :=
  { r with title := a.title, raw_content := a.raw_content,
           direct_link := a.direct_link, updated_at := t }

/-- `Article._insert`: INSERT .. RETURNING id, created_at, updated_at.
On success it assigns `self.id`, `self.created_at`, `self.updated_at`
from the returned row, commits and closes; any exception is caught,
`None` is returned and the connection (if acquired) is not closed. -/
def Article._insert (a : Article) (env : Env) (t : Nat) (db : DB) : SaveOut :=
  if env.connFails then ⟨none, a, db, 0, 0, true⟩
  else if env.execFails || insertErr a db then ⟨none, a, db, 1, 1, true⟩
  else
    let newRow : Row := ⟨db.nextId, a.title, a.raw_content, a.direct_link, t, t⟩
    ⟨some db.nextId,
     { a with id := some db.nextId, created_at := some t, updated_at := some t },
     { db with rows := db.rows ++ [newRow], nextId := db.nextId + 1 },
     1, 0, false⟩

/-- `Article._update`: UPDATE .. WHERE id = self.id RETURNING updated_at.
When `fetchone` returns a row the new `updated_at` is stored, the
transaction commits and the connection closes; when no row matched the
connection is closed and `None` returned ("not found", no exception);
any exception is caught, `None` returned, connection left open. -/
def Article._update (a : Article) (env : Env) (t : Nat) (db : DB) : SaveOut :=
  let i := a.id.getD 0
  if env.connFails then ⟨none, a, db, 0, 0, true⟩
  else if env.execFails || !db.tableExists then ⟨none, a, db, 1, 1, true⟩
  else if db.rows.any (fun r => r.id == i) then
    if updateErr a i db then ⟨none, a, db, 1, 1, true⟩
    else
      ⟨some i, { a with updated_at := some t },
       { db with rows := db.rows.map (fun r => if r.id == i then updatedRow a t r else r) },
       1, 0, false⟩
  else ⟨none, a, db, 1, 0, false⟩

/-- `Article.save`: dispatch on the truthiness of `self.id`. -/
def Article.save (a : Article) (env : Env) (t : Nat) (db : DB) : SaveOut :=
  if truthyId a then Article._update a env t db else Article._insert a env t db

/-- `Article.delete`: returns `False` at once when `self.id` is falsy
(no connection opened); otherwise DELETE .. WHERE id = self.id, commit,
close, and return whether `rowcount > 0`.  An exception is caught,
`False` returned, connection left open. -/
def Article.delete (a : Article) (env : Env) (db : DB) : Out Bool :=
  if !truthyId a then ⟨false, db, 0, 0, false⟩
  else
    let i := a.id.getD 0
    if env.connFails then ⟨false, db, 0, 0, true⟩
    else if env.execFails || !db.tableExists then ⟨false, db, 1, 1, true⟩
    else
      let deleted := (db.rows.filter (fun r => r.id == i)).length
      ⟨decide (deleted > 0),
       { db with rows := db.rows.filter (fun r => r.id != i) },
       1, 0, false⟩

/-- `Article.table_exists`: queries `information_schema.tables` and
returns whether a row came back; every exception collapses to `False`
(and leaves the connection open). -/
def Article.table_exists (env : Env) (db : DB) : Out Bool :=
  if env.connFails then ⟨false, db, 0, 0, true⟩
  else if env.execFails then ⟨false, db, 1, 1, true⟩
  else ⟨db.tableExists, db, 1, 0, false⟩

/-- `Article.create_table`: DROP TABLE IF EXISTS, CREATE TABLE, CREATE
INDEX IF NOT EXISTS (twice), commit, close, then re-check through
`Article.table_exists` (which opens its own connection, with its own
environment `envCheck`) and return that check's result.  A failure in
the statement sequence rolls the uncommitted transaction back, prints,
and returns `False` with the connection left open. -/
def Article.create_table (env envCheck : Env) (db : DB) : Out Bool :=
  if env.connFails then ⟨false, db, 0, 0, true⟩
  else if env.execFails then ⟨false, db, 1, 1, true⟩
  else
    let db2 : DB := ⟨true, [], 1, true, true⟩
    let chk := Article.table_exists envCheck db2
    ⟨chk.result, chk.db, 1 + chk.opened, chk.leaked, false⟩

/-- `Article.from_dict` applied to a fetched row dictionary. -/
def rowToArticle (r : Row) : Article :=
  ⟨some r.id, r.title, r.raw_content, r.direct_link, some r.created_at, some r.updated_at⟩

/-- Stable insertion of a row into a list sorted by `created_at`
descending (the determinisation of ORDER BY created_at DESC). -/
def insertByCreated (r : Row) : List Row → List Row
  | [] => [r]
  | x :: xs =>
      if x.created_at ≤ r.created_at then r :: x :: xs
      else x :: insertByCreated r xs

/-- Sort rows by `created_at` descending (insertion sort). -/
def sortByCreatedDesc : List Row → List Row
  | [] => []
  | x :: xs => insertByCreated x (sortByCreatedDesc xs)

/-- `Article.get_all`: SELECT * ORDER BY created_at DESC; empty list on
any exception (connection then left open). -/
def Article.get_all (env : Env) (db : DB) : Out (List Article) :=
  if env.connFails then ⟨[], db, 0, 0, true⟩
  else if env.execFails || !db.tableExists then ⟨[], db, 1, 1, true⟩
  else ⟨(sortByCreatedDesc db.rows).map rowToArticle, db, 1, 0, false⟩

/-- `Article.get_by_id`: SELECT * WHERE id = %s, `fetchone`. -/
def Article.get_by_id (i : Nat) (env : Env) (db : DB) : Out (Option Article) :=
  if env.connFails then ⟨none, db, 0, 0, true⟩
  else if env.execFails || !db.tableExists then ⟨none, db, 1, 1, true⟩
  else ⟨(db.rows.find? (fun r => r.id == i)).map rowToArticle, db, 1, 0, false⟩

/-- `Article.get_by_link`: SELECT * WHERE direct_link = %s, `fetchone`. -/
def Article.get_by_link (s : String) (env : Env) (db : DB) : Out (Option Article) :=
  if env.connFails then ⟨none, db, 0, 0, true⟩
  else if env.execFails || !db.tableExists then ⟨none, db, 1, 1, true⟩
  else ⟨(db.rows.find? (fun r => r.direct_link == s)).map rowToArticle, db, 1, 0, false⟩

/-- One parsed element of an ILIKE pattern: the `%` wildcard, the `_`
wildcard, or one literal character. -/
inductive Tok where
  | pct
  | uscore
  | lit (c : Char)
deriving DecidableEq, Repr

/-- Parse an ILIKE pattern: `%` and `_` are wildcards and backslash
escapes the following pattern character; `esc` records whether the
previous character was an unconsumed escape.  (A dangling final
backslash is an error in PostgreSQL; it cannot arise from
`search_by_title`, whose patterns end in `%`, and is dropped here.) -/
def toksAux : Bool → List Char → List Tok
  | _, [] => []
  | true, c :: ps => .lit c :: toksAux false ps
  | false, c :: ps =>
      if c = '%' then .pct :: toksAux false ps
      else if c = '_' then .uscore :: toksAux false ps
      else if c = '\\' then toksAux true ps
      else .lit c :: toksAux false ps

/-- Parse an ILIKE pattern (no pending escape). -/
def toks (p : List Char) : List Tok := toksAux false p

/-- Match a parsed ILIKE pattern against a text: `%` matches any
sequence, `_` any single character, and literal comparisons are
case-insensitive (PostgreSQL `ILIKE` folds both sides). -/
def tokMatch : List Tok → List Char → Bool
  | [], t => t.isEmpty
  | .pct :: ps, t => t.tails.any (fun s => tokMatch ps s)
  | .uscore :: _, [] => false
  | .uscore :: ps, _ :: ts => tokMatch ps ts
  | .lit _ :: _, [] => false
  | .lit c :: ps, d :: ts => (c.toLower == d.toLower) && tokMatch ps ts

/-- SQL ILIKE over character lists. -/
def ilike (p t : List Char) : Bool := tokMatch (toks p) t

/-- The pattern `search_by_title` builds: `f'%{title_query}%'`. -/
def likePattern (q : String) : List Char := '%' :: (q.toList ++ ['%'])

/-- The WHERE clause of `search_by_title`: `title ILIKE '%' + q + '%'`. -/
def titleMatches (q title : String) : Bool :=
  ilike (likePattern q) title.toList

/-- `Article.search_by_title`: SELECT * WHERE title ILIKE %s ORDER BY
created_at DESC; empty list on any exception. -/
def Article.search_by_title (q : String) (env : Env) (db : DB) : Out (List Article) :=
  if env.connFails then ⟨[], db, 0, 0, true⟩
  else if env.execFails || !db.tableExists then ⟨[], db, 1, 1, true⟩
  else
    ⟨(sortByCreatedDesc (db.rows.filter (fun r => titleMatches q r.title))).map rowToArticle,
     db, 1, 0, false⟩

/-- One column descriptor as returned by the `information_schema.columns`
query of `get_table_structure`. -/
structure ColumnDesc where
  column_name : String
  data_type : String
  character_maximum_length : Option Nat
  is_nullable : Bool
  column_default : Option String
deriving DecidableEq, Repr

/-- The column set the CREATE TABLE statement of `create_table`
produces, in ordinal position order. -/
def articleColumns : List ColumnDesc :=
  [⟨"id", "integer", none, false, some "nextval('articles_id_seq'::regclass)"⟩,
   ⟨"title", "character varying", some 500, false, none⟩,
   ⟨"raw_content", "text", none, true, none⟩,
   ⟨"direct_link", "character varying", some 1000, true, none⟩,
   ⟨"created_at", "timestamp without time zone", none, true, some "CURRENT_TIMESTAMP"⟩,
   ⟨"updated_at", "timestamp without time zone", none, true, some "CURRENT_TIMESTAMP"⟩]

/-- `Article.get_table_structure`: the catalog query succeeds whether or
not the table exists (an absent table yields no rows, hence `[]`). -/
def Article.get_table_structure (env : Env) (db : DB) : Out (List ColumnDesc) :=
  if env.connFails then ⟨[], db, 0, 0, true⟩
  else if env.execFails then ⟨[], db, 1, 1, true⟩
  else ⟨if db.tableExists then articleColumns else [], db, 1, 0, false⟩

/-- Boolean test: the first list is a leading segment of the second. -/
def isPref : List Char → List Char → Bool
  | [], _ => true
  | _ :: _, [] => false
  | a :: xs, b :: ys => (a == b) && isPref xs ys

/-- Boolean test: `needle` occurs contiguously somewhere in `hay`. -/
def isSub (needle hay : List Char) : Bool :=
  hay.tails.any (fun s => isPref needle s)

/-- The specification's wording for `search_by_title`: "case-insensitive
substring match against `title`".  Stated from the spec's words, to be
compared with the ILIKE semantics the code actually has. -/
def containsCI (q s : String) : Bool :=
  isSub (q.toList.map Char.toLower) (s.toList.map Char.toLower)

/-- No character of the list is an ILIKE metacharacter (`%`, `_`, or the
escape character backslash). -/
def noMeta : List Char → Bool
  | [] => true
  | c :: l => !(c == '%' || c == '_' || c == '\\') && noMeta l

/-- Timestamp invariant of one persisted row. -/
def rowOK (r : Row) : Prop := r.created_at ≤ r.updated_at

/-- The section-3 invariant: every persisted row has `created_at ≤ updated_at`. -/
def DBInv (db : DB) : Prop := ∀ r ∈ db.rows, rowOK r

/-- Every timestamp stored in the database is at most `t` (the server
clock has reached every stored timestamp). -/
def TimesLE (db : DB) (t : Nat) : Prop :=
  ∀ r ∈ db.rows, r.created_at ≤ t ∧ r.updated_at ≤ t

/-- The repository calls that can change the database state. -/
inductive MutOp where
  | saveOp (a : Article) (env : Env)
  | deleteOp (a : Article) (env : Env)
  | createOp (env envCheck : Env)

/-- Database effect of one mutating call executed at server time `t`. -/
def stepDB : MutOp → Nat → DB → DB
  | .saveOp a env, t, db => (Article.save a env t db).db
  | .deleteOp a env, _, db => (Article.delete a env db).db
  | .createOp e ec, _, db => (Article.create_table e ec db).db

/-- Run a sequence of mutating calls, each tagged with its server time. -/
def runOps : List (MutOp × Nat) → DB → DB
  | [], db => db
  | (op, t) :: tr, db => runOps tr (stepDB op t db)

/-- The server times along a trace never decrease, starting from `t0`. -/
def WellTimed : Nat → List (MutOp × Nat) → Prop
  | _, [] => True
  | t0, (_, t) :: tr => t0 ≤ t ∧ WellTimed t tr

instance (r : Row) : Decidable (rowOK r) :=
  inferInstanceAs (Decidable (r.created_at ≤ r.updated_at))

instance (db : DB) : Decidable (DBInv db) :=
  inferInstanceAs (Decidable (∀ r ∈ db.rows, rowOK r))

instance (db : DB) (t : Nat) : Decidable (TimesLE db t) :=
  inferInstanceAs (Decidable (∀ r ∈ db.rows, r.created_at ≤ t ∧ r.updated_at ≤ t))

instance instDecWellTimed : (t0 : Nat) → (tr : List (MutOp × Nat)) → Decidable (WellTimed t0 tr)
  | _, [] => .isTrue trivial
  | t0, (_, t) :: tr =>
      have : Decidable (WellTimed t tr) := instDecWellTimed t tr
      inferInstanceAs (Decidable (t0 ≤ t ∧ WellTimed t tr))

/-! ### Pattern-matching lemmas -/

theorem tokMatch_pct (ps : List Tok) (t : List Char) :
    tokMatch (.pct :: ps) t = t.tails.any (fun s => tokMatch ps s) := rfl

theorem tails_map (f : Char → Char) (l : List Char) :
    (l.map f).tails = l.tails.map (List.map f) := by
  induction l with
  | nil => rfl
  | cons a l ih => simp [List.tails_cons, ih]

theorem nil_mem_tails (t : List Char) : [] ∈ t.tails := by
  induction t with
  | nil => simp
  | cons a l ih => simp [List.tails_cons, ih]

theorem self_mem_tails (t : List Char) : t ∈ t.tails := by
  cases t <;> simp [List.tails_cons]

theorem tokMatch_pct_true (t : List Char) : tokMatch [.pct] t = true := by
  rw [tokMatch_pct, List.any_eq_true]
  exact ⟨[], nil_mem_tails t, rfl⟩

theorem tokMatch_lits (p : List Char) :
    ∀ t, tokMatch (p.map Tok.lit ++ [Tok.pct]) t
      = isPref (p.map Char.toLower) (t.map Char.toLower) := by
  induction p with
  | nil =>
    intro t
    simpa [isPref] using tokMatch_pct_true t
  | cons c p' ih =>
    intro t
    cases t with
    | nil => rfl
    | cons d ts => simp [tokMatch, isPref, ih ts]

theorem noMeta_cons {c : Char} {l : List Char} (h : noMeta (c :: l) = true) :
    ¬ c = '%' ∧ ¬ c = '_' ∧ ¬ c = '\\' ∧ noMeta l = true := by
  simpa [noMeta, not_or, and_assoc] using h

theorem toks_append_noMeta (p : List Char) (rest : List Char) (hp : noMeta p = true) :
    toksAux false (p ++ rest) = p.map Tok.lit ++ toksAux false rest := by
  induction p with
  | nil => simp
  | cons c p' ih =>
    obtain ⟨h1, h2, h3, hp'⟩ := noMeta_cons hp
    simp [toksAux, h1, h2, h3, ih hp']

theorem ilike_eq_isSub (q : List Char) (hq : noMeta q = true) (t : List Char) :
    ilike ('%' :: (q ++ ['%'])) t = isSub (q.map Char.toLower) (t.map Char.toLower) := by
  unfold ilike toks
  have h1 : toksAux false ('%' :: (q ++ ['%'])) = .pct :: (q.map Tok.lit ++ [Tok.pct]) := by
    have h2 : toksAux false (q ++ ['%']) = q.map Tok.lit ++ toksAux false ['%'] :=
      toks_append_noMeta q ['%'] hq
    simp [toksAux, h2]
  rw [h1, tokMatch_pct]
  simp only [tokMatch_lits q]
  unfold isSub
  rw [tails_map, List.any_map]
  rfl

theorem titleMatches_eq_containsCI (q title : String) (hq : noMeta q.toList = true) :
    titleMatches q title = containsCI q title := by
  unfold titleMatches likePattern containsCI
  exact ilike_eq_isSub q.toList hq title.toList

theorem titleMatches_pct_all (title : String) : titleMatches "%" title = true := by
  unfold titleMatches likePattern
  have h1 : ('%' :: (String.toList "%" ++ ['%'])) = ['%', '%', '%'] := rfl
  rw [h1]
  unfold ilike
  have h2 : toks ['%', '%', '%'] = [.pct, .pct, .pct] := rfl
  rw [h2, tokMatch_pct, List.any_eq_true]
  refine ⟨title.toList, self_mem_tails _, ?_⟩
  rw [tokMatch_pct, List.any_eq_true]
  exact ⟨[], nil_mem_tails _, rfl⟩

/-! ### Ordering lemmas for ORDER BY created_at DESC -/

theorem mem_insertByCreated {r x : Row} {l : List Row} :
    x ∈ insertByCreated r l ↔ x = r ∨ x ∈ l := by
  induction l with
  | nil => simp [insertByCreated]
  | cons a l ih =>
    by_cases h : a.created_at ≤ r.created_at
    · simp [insertByCreated, h]
    · simp [insertByCreated, h, ih]
      tauto

theorem mem_sortByCreatedDesc {x : Row} {l : List Row} :
    x ∈ sortByCreatedDesc l ↔ x ∈ l := by
  induction l with
  | nil => simp [sortByCreatedDesc]
  | cons a l ih => simp [sortByCreatedDesc, mem_insertByCreated, ih]

theorem pairwise_insertByCreated {r : Row} {l : List Row}
    (h : l.Pairwise (fun x y => y.created_at ≤ x.created_at)) :
    (insertByCreated r l).Pairwise (fun x y => y.created_at ≤ x.created_at) := by
  induction l with
  | nil => simp [insertByCreated]
  | cons a l ih =>
    rw [List.pairwise_cons] at h
    obtain ⟨ha, hl⟩ := h
    by_cases hc : a.created_at ≤ r.created_at
    · rw [insertByCreated, if_pos hc, List.pairwise_cons]
      refine ⟨?_, ?_⟩
      · intro b hb
        rcases List.mem_cons.mp hb with hb | hb
        · exact hb ▸ hc
        · exact le_trans (ha b hb) hc
      · rw [List.pairwise_cons]
        exact ⟨ha, hl⟩
    · rw [insertByCreated, if_neg hc, List.pairwise_cons]
      refine ⟨?_, ih hl⟩
      intro b hb
      rcases mem_insertByCreated.mp hb with hb | hb
      · subst hb; omega
      · exact ha b hb

theorem pairwise_sortByCreatedDesc (l : List Row) :
    (sortByCreatedDesc l).Pairwise (fun x y => y.created_at ≤ x.created_at) := by
  induction l with
  | nil => simp [sortByCreatedDesc]
  | cons a l ih => exact pairwise_insertByCreated ih

/-! ### Row-count lemmas for DELETE -/

theorem countId_le_one {l : List Row} {i : Nat}
    (h : l.Pairwise (fun r s => r.id ≠ s.id)) :
    (l.filter (fun r => r.id == i)).length ≤ 1 := by
  induction l with
  | nil => simp
  | cons a l ih =>
    rw [List.pairwise_cons] at h
    obtain ⟨ha, hl⟩ := h
    by_cases hc : a.id = i
    · have hnil : l.filter (fun r => r.id == i) = [] := by
        rw [List.filter_eq_nil_iff]
        intro x hx
        simp only [beq_iff_eq]
        intro he
        exact ha x hx (by omega)
      simp [List.filter_cons, hc, hnil]
    · simp only [List.filter_cons, beq_iff_eq, hc, if_false, ite_false]
      exact ih hl

theorem filter_ne_of_pos {l : List Row} (h : ∀ r ∈ l, 1 ≤ r.id) :
    l.filter (fun r => r.id != 0) = l := by
  rw [List.filter_eq_self]
  intro r hr
  have := h r hr
  simp only [bne_iff_ne, ne_eq]
  omega

theorem filter_zero_nil {l : List Row} (h : ∀ r ∈ l, 1 ≤ r.id) :
    l.filter (fun r => r.id == 0) = [] := by
  rw [List.filter_eq_nil_iff]
  intro r hr
  have := h r hr
  simp only [beq_iff_eq]
  omega

/-! ### Timestamp invariant machinery -/

theorem save_rows_cases (a : Article) (env : Env) (t : Nat) (db : DB) :
    (Article.save a env t db).db.rows = db.rows
    ∨ (∃ nr : Row, nr.created_at = t ∧ nr.updated_at = t ∧
        (Article.save a env t db).db.rows = db.rows ++ [nr])
    ∨ (Article.save a env t db).db.rows
        = db.rows.map (fun r => if r.id == a.id.getD 0 then updatedRow a t r else r) := by
  simp only [Article.save, Article._update, Article._insert]
  split_ifs <;>
    first
      | exact Or.inl rfl
      | exact Or.inr (Or.inl ⟨_, rfl, rfl, rfl⟩)
      | exact Or.inr (Or.inr rfl)

theorem stepDB_rows_cases (op : MutOp) (t : Nat) (db : DB) :
    (stepDB op t db).rows = db.rows
    ∨ (∃ nr : Row, nr.created_at = t ∧ nr.updated_at = t ∧
        (stepDB op t db).rows = db.rows ++ [nr])
    ∨ (∃ a : Article,
        (stepDB op t db).rows
          = db.rows.map (fun r => if r.id == a.id.getD 0 then updatedRow a t r else r))
    ∨ (∃ p : Row → Bool, (stepDB op t db).rows = db.rows.filter p)
    ∨ (stepDB op t db).rows = [] := by
  cases op with
  | saveOp a env =>
    rcases save_rows_cases a env t db with h | h | h
    · exact Or.inl h
    · exact Or.inr (Or.inl h)
    · exact Or.inr (Or.inr (Or.inl ⟨a, h⟩))
  | deleteOp a env =>
    simp only [stepDB, Article.delete]
    split_ifs <;>
      first
        | exact Or.inl rfl
        | exact Or.inr (Or.inr (Or.inr (Or.inl ⟨_, rfl⟩)))
  | createOp e ec =>
    simp only [stepDB, Article.create_table, Article.table_exists]
    split_ifs <;>
      first
        | exact Or.inl rfl
        | exact Or.inr (Or.inr (Or.inr (Or.inr rfl)))

theorem stepDB_preserves (op : MutOp) (t : Nat) (db : DB)
    (hInv : DBInv db) (hT : TimesLE db t) :
    DBInv (stepDB op t db) ∧ TimesLE (stepDB op t db) t := by
  rcases stepDB_rows_cases op t db with h | ⟨nr, hc, hu, h⟩ | ⟨a, h⟩ | ⟨p, h⟩ | h
  · constructor
    · intro r hr; rw [h] at hr; exact hInv r hr
    · intro r hr; rw [h] at hr; exact hT r hr
  · constructor
    · intro r hr
      rw [h, List.mem_append] at hr
      rcases hr with hr | hr
      · exact hInv r hr
      · simp only [List.mem_singleton] at hr
        subst hr
        unfold rowOK
        omega
    · intro r hr
      rw [h, List.mem_append] at hr
      rcases hr with hr | hr
      · exact hT r hr
      · simp only [List.mem_singleton] at hr
        subst hr
        omega
  · constructor
    · intro r hr
      rw [h, List.mem_map] at hr
      obtain ⟨r0, hr0, hrr⟩ := hr
      subst hrr
      by_cases hid : r0.id == a.id.getD 0
      · simp only [hid, if_true, ite_true]
        unfold rowOK updatedRow
        have := hT r0 hr0
        simp only
        omega
      · simp only [hid, if_false, ite_false]
        exact hInv r0 hr0
    · intro r hr
      rw [h, List.mem_map] at hr
      obtain ⟨r0, hr0, hrr⟩ := hr
      subst hrr
      by_cases hid : r0.id == a.id.getD 0
      · simp only [hid, if_true, ite_true]
        unfold updatedRow
        have := hT r0 hr0
        simp only
        omega
      · simp only [hid, if_false, ite_false]
        exact hT r0 hr0
  · constructor
    · intro r hr
      rw [h, List.mem_filter] at hr
      exact hInv r hr.1
    · intro r hr
      rw [h, List.mem_filter] at hr
      exact hT r hr.1
  · constructor
    · intro r hr; rw [h] at hr; simp at hr
    · intro r hr; rw [h] at hr; simp at hr

theorem timesLE_mono {db : DB} {t t' : Nat} (h : TimesLE db t) (htt : t ≤ t') :
    TimesLE db t' := by
  intro r hr
  have := h r hr
  omega

theorem runOps_inv : ∀ (tr : List (MutOp × Nat)) (db : DB) (t0 : Nat),
    DBInv db → TimesLE db t0 → WellTimed t0 tr → DBInv (runOps tr db) := by
  intro tr
  induction tr with
  | nil => intro db t0 hInv _ _; exact hInv
  | cons x tr ih =>
    obtain ⟨op, t⟩ := x
    intro db t0 hInv hT hWT
    obtain ⟨h0t, hWT'⟩ := hWT
    have hTt : TimesLE db t := timesLE_mono hT h0t
    obtain ⟨hInv', hT'⟩ := stepDB_preserves op t db hInv hTt
    exact ih (stepDB op t db) t hInv' hT' hWT'

/-! ### Claim theorems -/

/-- C1, counterexample: an Article carrying `id = 0` has an id, and no row
with id 0 exists in the (empty) table, so by the claim `save()` should
perform an update restricted to id 0 and signal "not found" by returning
`None` with no write; the code instead inserts a fresh row and returns the
new id 1. -/
theorem c1_counterexample :
    (Article.save ⟨some 0, "t", "r", "l", none, none⟩ okEnv 5 ⟨true, [], 1, true, true⟩).result
      = some 1
    ∧ (Article.save ⟨some 0, "t", "r", "l", none, none⟩ okEnv 5 ⟨true, [], 1, true, true⟩).db.rows.length
      = 1
    ∧ (⟨true, [], 1, true, true⟩ : DB).rows.any (fun r => r.id == 0) = false := by
  decide

/-- C1, amended: `save()` dispatches on the truthiness of `id` (`None`
or `0` selects insert, a nonzero id selects update).  With a falsy id it
inserts, assigning id, created_at, updated_at from the storage response
and returning the new id; with a nonzero id it updates only the row with
that id and returns it on success; an update targeting a nonexistent id
performs no write and returns `None` without raising. -/
theorem c1_save_dispatch (a : Article) (env : Env) (t : Nat) (db : DB) :
    (truthyId a = false → Article.save a env t db = Article._insert a env t db)
    ∧ (truthyId a = true → Article.save a env t db = Article._update a env t db)
    ∧ (a.id = none → env.connFails = false → env.execFails = false → insertErr a db = false →
        (Article.save a env t db).result = some db.nextId
        ∧ (Article.save a env t db).art
            = { a with id := some db.nextId, created_at := some t, updated_at := some t }
        ∧ (Article.save a env t db).db.rows
            = db.rows ++ [⟨db.nextId, a.title, a.raw_content, a.direct_link, t, t⟩])
    ∧ (∀ i : Nat, a.id = some i → i ≠ 0 → env.connFails = false → env.execFails = false →
        db.tableExists = true →
        ((db.rows.any (fun r => r.id == i)) = true → updateErr a i db = false →
          (Article.save a env t db).result = some i
          ∧ (Article.save a env t db).db.rows
              = db.rows.map (fun r => if r.id == i then updatedRow a t r else r))
        ∧ ((db.rows.any (fun r => r.id == i)) = false →
          (Article.save a env t db).result = none
          ∧ (Article.save a env t db).db = db
          ∧ (Article.save a env t db).excepted = false)) := by
  refine ⟨?_, ?_, ?_, ?_⟩
  · intro h; simp [Article.save, h]
  · intro h; simp [Article.save, h]
  · intro ha h1 h2 h3
    simp [Article.save, truthyId, ha, Article._insert, h1, h2, h3]
  · intro i ha hi h1 h2 h3
    have ht : truthyId a = true := by simp [truthyId, ha, hi]
    constructor
    · intro hmem herr
      simp [Article.save, ht, Article._update, ha, h1, h2, h3, hmem, herr]
    · intro hmem
      simp [Article.save, ht, Article._update, ha, h1, h2, h3, hmem]

/-- C1, witness: the amended dispatch at concrete inputs (an unsaved
article inserts and gets id 1; a nonzero-id article whose id is absent
from the table gets `None`). -/
theorem c1_save_dispatch_witness :
    (Article.save ⟨none, "t", "r", "l", none, none⟩ okEnv 7 ⟨true, [], 1, true, true⟩).result
      = some 1
    ∧ (Article.save ⟨some 9, "t", "r", "l", none, none⟩ okEnv 7 ⟨true, [], 1, true, true⟩).result
      = none := by
  constructor
  · exact ((c1_save_dispatch ⟨none, "t", "r", "l", none, none⟩ okEnv 7
      ⟨true, [], 1, true, true⟩).2.2.1 rfl rfl rfl (by decide)).1
  · exact (((c1_save_dispatch ⟨some 9, "t", "r", "l", none, none⟩ okEnv 7
      ⟨true, [], 1, true, true⟩).2.2.2 9 rfl (by decide) rfl rfl rfl).2 (by decide)).1

/-- C8: the insert-vs-update dispatch tests `id` for truthiness, not
presence: an Article with `id = 0` is routed to `_insert` (a fresh id is
assigned on success), and `delete()` on it returns `False` immediately,
opening no connection and leaving the database untouched. -/
theorem c8_truthiness (a : Article) (env : Env) (t : Nat) (db : DB)
    (h : a.id = some 0) :
    Article.save a env t db = Article._insert a env t db
    ∧ (env.connFails = false → env.execFails = false → insertErr a db = false →
        (Article.save a env t db).result = some db.nextId
        ∧ (Article.save a env t db).art.id = some db.nextId)
    ∧ Article.delete a env db = ⟨false, db, 0, 0, false⟩ := by
  have ht : truthyId a = false := by simp [truthyId, h]
  refine ⟨?_, ?_, ?_⟩
  · simp [Article.save, ht]
  · intro h1 h2 h3
    simp [Article.save, ht, Article._insert, h1, h2, h3]
  · simp [Article.delete, ht]

/-- C8, witness: at a concrete zero-id article over an empty table,
`save` inserts (returning id 1) and `delete` returns `False` without
opening a connection. -/
theorem c8_truthiness_witness :
    (Article.save ⟨some 0, "t", "r", "l", none, none⟩ okEnv 4 ⟨true, [], 1, true, true⟩).result
      = some 1
    ∧ (Article.delete ⟨some 0, "t", "r", "l", none, none⟩ okEnv ⟨true, [], 1, true, true⟩).opened
      = 0 := by
  refine ⟨?_, ?_⟩
  · exact ((c8_truthiness ⟨some 0, "t", "r", "l", none, none⟩ okEnv 4
      ⟨true, [], 1, true, true⟩ rfl).2.1 rfl rfl (by decide)).1
  · rw [(c8_truthiness ⟨some 0, "t", "r", "l", none, none⟩ okEnv 4
      ⟨true, [], 1, true, true⟩ rfl).2.2]

/-- C4: a successful `save()` of an Article without an id returns a
positive integer id, and at that instant the article's `created_at`
equals its `updated_at` (both are the timestamp the INSERT's RETURNING
clause handed back). -/
theorem c4_insert_positive (a : Article) (env : Env) (t : Nat) (db : DB) (j : Nat)
    (hid : a.id = none) (hnext : 1 ≤ db.nextId)
    (hres : (Article.save a env t db).result = some j) :
    0 < j
    ∧ (Article.save a env t db).art.created_at = (Article.save a env t db).art.updated_at := by
  have ht : truthyId a = false := by simp [truthyId, hid]
  rw [Article.save, ht] at hres ⊢
  simp only [Bool.false_eq_true, if_false, ite_false]
  unfold Article._insert at hres ⊢
  by_cases h1 : env.connFails
  · simp [h1] at hres
  · by_cases h2 : (env.execFails || insertErr a db) = true
    · simp [h1, h2] at hres
    · simp only [h1, h2, Bool.false_eq_true, if_false, ite_false] at hres ⊢
      simp only [Option.some.injEq] at hres
      subst hres
      simp only [and_true, true_and]
      omega

/-- C4, witness: a concrete insert into an empty table returns id 1 with
equal timestamps. -/
theorem c4_insert_positive_witness :
    0 < 1
    ∧ (Article.save ⟨none, "t", "r", "l", none, none⟩ okEnv 6 ⟨true, [], 1, true, true⟩).art.created_at
      = (Article.save ⟨none, "t", "r", "l", none, none⟩ okEnv 6 ⟨true, [], 1, true, true⟩).art.updated_at := by
  have h := c4_insert_positive ⟨none, "t", "r", "l", none, none⟩ okEnv 6
    ⟨true, [], 1, true, true⟩ 1 rfl (by decide) (by decide)
  exact ⟨h.1, h.2⟩

/-- C2: with its own statements succeeding, `create_table()` leaves a
state in which the table exists, all previously inserted rows are gone,
both secondary indexes exist and the column set is that of section 3;
the call re-verifies existence through `table_exists()` (run under its
own environment `envCheck`) and its boolean return value is exactly the
result of that post-check. -/
theorem c2_create_table (db : DB) (envCheck : Env) :
    (Article.create_table okEnv envCheck db).db.rows = []
    ∧ (Article.create_table okEnv envCheck db).db.tableExists = true
    ∧ (Article.create_table okEnv envCheck db).db.idxTitle = true
    ∧ (Article.create_table okEnv envCheck db).db.idxLink = true
    ∧ (Article.create_table okEnv envCheck db).result
        = (Article.table_exists envCheck (Article.create_table okEnv envCheck db).db).result
    ∧ (Article.get_table_structure okEnv (Article.create_table okEnv envCheck db).db).result
        = articleColumns
    ∧ (Article.table_exists okEnv (Article.create_table okEnv envCheck db).db).result = true := by
  by_cases h1 : envCheck.connFails <;> by_cases h2 : envCheck.execFails <;>
    simp [Article.create_table, Article.table_exists, Article.get_table_structure,
      okEnv, h1, h2]

theorem delete_ok (a : Article) (db : DB) (i : Nat)
    (ha : a.id = some i) (hi : i ≠ 0) (htab : db.tableExists = true) :
    Article.delete a okEnv db
      = ⟨decide ((db.rows.filter (fun r => r.id == i)).length > 0),
         { db with rows := db.rows.filter (fun r => r.id != i) }, 1, 0, false⟩ := by
  have ht : truthyId a = true := by simp [truthyId, ha, hi]
  unfold Article.delete
  rw [ht]
  simp only [Bool.not_true, Bool.false_eq_true, if_false, ite_false, ha, Option.getD_some,
    okEnv, htab]
  rfl

/-- C6: `delete()` with no assigned id returns `False` immediately,
opening no connection and writing nothing; with an assigned id it
removes exactly the matching rows and returns `True` iff exactly one row
was removed (under the primary-key invariant there is at most one), and
a second `delete()` of a freshly deleted id returns `False`. -/
theorem c6_delete (a : Article) (db : DB)
    (htab : db.tableExists = true)
    (hids : ∀ r ∈ db.rows, 1 ≤ r.id)
    (hdist : db.rows.Pairwise (fun r s => r.id ≠ s.id)) :
    (a.id = none → Article.delete a okEnv db = ⟨false, db, 0, 0, false⟩)
    ∧ (∀ i : Nat, a.id = some i →
        ((Article.delete a okEnv db).result = true
          ↔ (db.rows.filter (fun r => r.id == i)).length = 1)
        ∧ (Article.delete a okEnv db).db.rows = db.rows.filter (fun r => r.id != i)
        ∧ ((Article.delete a okEnv db).result = true →
            (Article.delete a okEnv (Article.delete a okEnv db).db).result = false)) := by
  constructor
  · intro h
    simp [Article.delete, truthyId, h]
  · intro i ha
    by_cases hi : i = 0
    · subst hi
      have ht : truthyId a = false := by simp [truthyId, ha]
      have hd : Article.delete a okEnv db = ⟨false, db, 0, 0, false⟩ := by
        simp [Article.delete, ht]
      rw [hd]
      refine ⟨?_, ?_, ?_⟩
      · simp [filter_zero_nil hids]
      · exact (filter_ne_of_pos hids).symm
      · intro hfalse
        simp at hfalse
    · have hcount := countId_le_one (i := i) hdist
      rw [delete_ok a db i ha hi htab]
      refine ⟨?_, rfl, ?_⟩
      · simp only [decide_eq_true_eq]
        omega
      · intro _
        have htab2 : ({ db with rows := db.rows.filter (fun r => r.id != i) } : DB).tableExists
            = true := htab
        rw [delete_ok a _ i ha hi htab2]
        have hnil : (db.rows.filter (fun r => r.id != i)).filter (fun r => r.id == i) = [] := by
          rw [List.filter_eq_nil_iff]
          intro x hx
          rw [List.mem_filter] at hx
          have h2 := hx.2
          simp only [bne_iff_ne, ne_eq] at h2
          simp [h2]
        simp [hnil]

/-- C6, witness: deleting a one-row table by its id succeeds once (the
iff against row count 1), leaves no rows, and a second delete of the
same id returns `False`. -/
theorem c6_delete_witness :
    ((Article.delete ⟨some 1, "t", "r", "l", none, none⟩ okEnv
        ⟨true, [⟨1, "a", "b", "c", 1, 1⟩], 2, true, true⟩).result = true
      ↔ ((⟨true, [⟨1, "a", "b", "c", 1, 1⟩], 2, true, true⟩ : DB).rows.filter
          (fun r => r.id == 1)).length = 1)
    ∧ ((Article.delete ⟨some 1, "t", "r", "l", none, none⟩ okEnv
        ⟨true, [⟨1, "a", "b", "c", 1, 1⟩], 2, true, true⟩).result = true →
      (Article.delete ⟨some 1, "t", "r", "l", none, none⟩ okEnv
        (Article.delete ⟨some 1, "t", "r", "l", none, none⟩ okEnv
          ⟨true, [⟨1, "a", "b", "c", 1, 1⟩], 2, true, true⟩).db).result = false) := by
  have h := c6_delete ⟨some 1, "t", "r", "l", none, none⟩
    ⟨true, [⟨1, "a", "b", "c", 1, 1⟩], 2, true, true⟩ rfl
    (by decide) (by decide)
  exact ⟨(h.2 1 rfl).1, (h.2 1 rfl).2.2⟩

/-- C9: an Article built without `direct_link` carries the empty string
(not NULL), the inserted row stores `""`, and the empty string falls
under the UNIQUE constraint: with no pre-existing empty-link row the
first default save succeeds and the second returns `None` with no write,
although the spec calls `direct_link` optional. -/
theorem c9_default_link_unique (a1 a2 : Article) (db : DB) (t1 t2 : Nat)
    (h1 : a1.id = none) (h2 : a2.id = none)
    (hl1 : a1.direct_link = "") (hl2 : a2.direct_link = "")
    (ht1 : a1.title.length ≤ 500) (ht2 : a2.title.length ≤ 500)
    (htab : db.tableExists = true)
    (hfresh : ∀ r ∈ db.rows, r.direct_link ≠ "") :
    (Article.save a1 okEnv t1 db).result = some db.nextId
    ∧ (Article.save a1 okEnv t1 db).db.rows
        = db.rows ++ [⟨db.nextId, a1.title, a1.raw_content, "", t1, t1⟩]
    ∧ (Article.save a2 okEnv t2 (Article.save a1 okEnv t1 db).db).result = none
    ∧ (Article.save a2 okEnv t2 (Article.save a1 okEnv t1 db).db).db
        = (Article.save a1 okEnv t1 db).db := by
  have htr1 : truthyId a1 = false := by simp [truthyId, h1]
  have htr2 : truthyId a2 = false := by simp [truthyId, h2]
  have herr1 : insertErr a1 db = false := by
    simp only [insertErr, htab, hl1, Bool.not_true, Bool.false_or]
    simp only [Bool.or_eq_false_iff]
    refine ⟨⟨by simpa using ht1, by simp⟩, ?_⟩
    rw [List.any_eq_false]
    intro r hr
    simpa using hfresh r hr
  have hsave1 : Article.save a1 okEnv t1 db
      = ⟨some db.nextId,
         { a1 with id := some db.nextId, created_at := some t1, updated_at := some t1 },
         { db with rows := db.rows ++ [⟨db.nextId, a1.title, a1.raw_content, "", t1, t1⟩],
                   nextId := db.nextId + 1 },
         1, 0, false⟩ := by
    simp [Article.save, htr1, Article._insert, okEnv, herr1, hl1]
  have herr2 : insertErr a2
      { db with rows := db.rows ++ [⟨db.nextId, a1.title, a1.raw_content, "", t1, t1⟩],
                nextId := db.nextId + 1 } = true := by
    simp [insertErr, hl2]
  rw [hsave1]
  refine ⟨rfl, rfl, ?_, ?_⟩
  · simp [Article.save, htr2, Article._insert, okEnv, herr2]
  · simp [Article.save, htr2, Article._insert, okEnv, herr2]

/-- C9, witness: two default-link articles saved into an empty table:
the first insert returns id 1 and stores the empty string, the second
returns `None` and writes nothing. -/
theorem c9_default_link_unique_witness :
    (Article.save ⟨none, "t1", "r1", "", none, none⟩ okEnv 3 ⟨true, [], 1, true, true⟩).result
      = some 1
    ∧ (Article.save ⟨none, "t2", "r2", "", none, none⟩ okEnv 4
        (Article.save ⟨none, "t1", "r1", "", none, none⟩ okEnv 3
          ⟨true, [], 1, true, true⟩).db).result = none := by
  have h := c9_default_link_unique ⟨none, "t1", "r1", "", none, none⟩
    ⟨none, "t2", "r2", "", none, none⟩ ⟨true, [], 1, true, true⟩ 3 4
    rfl rfl rfl rfl (by decide) (by decide) rfl (by decide)
  exact ⟨h.1, h.2.2.1⟩

/-- C7, counterexample: when `cursor.execute` raises, `get_all` and
`_insert` return their sentinel with the connection they opened still
open (`leaked = 1`), so it is not true that every operation releases its
connection on all exit paths. -/
theorem c7_counterexample :
    (Article.get_all ⟨false, true⟩ ⟨true, [], 1, true, true⟩).leaked = 1
    ∧ (Article._insert ⟨none, "t", "r", "l", none, none⟩ ⟨false, true⟩ 3
        ⟨true, [], 1, true, true⟩).leaked = 1 := by
  decide

/-- C7, amended: every repository operation releases the connections it
opened on every path on which no exception is raised (success and the
handled not-found/empty cases); only a call whose `except` handler ran
can leave its connection open.  For `create_table` the nested
`table_exists` post-check owns the second connection, so both
environments must be exception-free. -/
theorem c7_connection_release (a : Article) (env : Env) (t : Nat) (db : DB)
    (i : Nat) (s q : String) (envCheck : Env) :
    ((Article.save a env t db).excepted = false → (Article.save a env t db).leaked = 0)
    ∧ ((Article.delete a env db).excepted = false → (Article.delete a env db).leaked = 0)
    ∧ ((Article.table_exists env db).excepted = false
        → (Article.table_exists env db).leaked = 0)
    ∧ ((Article.get_all env db).excepted = false → (Article.get_all env db).leaked = 0)
    ∧ ((Article.get_by_id i env db).excepted = false
        → (Article.get_by_id i env db).leaked = 0)
    ∧ ((Article.get_by_link s env db).excepted = false
        → (Article.get_by_link s env db).leaked = 0)
    ∧ ((Article.search_by_title q env db).excepted = false
        → (Article.search_by_title q env db).leaked = 0)
    ∧ ((Article.get_table_structure env db).excepted = false
        → (Article.get_table_structure env db).leaked = 0)
    ∧ (env.connFails = false → env.execFails = false → envCheck.connFails = false →
        envCheck.execFails = false → (Article.create_table env envCheck db).leaked = 0) := by
  refine ⟨?_, ?_, ?_, ?_, ?_, ?_, ?_, ?_, ?_⟩
  · simp only [Article.save, Article._insert, Article._update]
    split_ifs <;> simp
  · simp only [Article.delete]
    split_ifs <;> simp
  · simp only [Article.table_exists]
    split_ifs <;> simp
  · simp only [Article.get_all]
    split_ifs <;> simp
  · simp only [Article.get_by_id]
    split_ifs <;> simp
  · simp only [Article.get_by_link]
    split_ifs <;> simp
  · simp only [Article.search_by_title]
    split_ifs <;> simp
  · simp only [Article.get_table_structure]
    split_ifs <;> simp
  · intro h1 h2 h3 h4
    simp [Article.create_table, Article.table_exists, h1, h2, h3, h4]

/-- C7, witness: concrete exception-free calls leak nothing. -/
theorem c7_connection_release_witness :
    (Article.get_all okEnv ⟨true, [], 1, true, true⟩).leaked = 0
    ∧ (Article.create_table okEnv okEnv ⟨true, [], 1, true, true⟩).leaked = 0 := by
  have h := c7_connection_release ⟨none, "t", "r", "l", none, none⟩ okEnv 0
    ⟨true, [], 1, true, true⟩ 1 "s" "q" okEnv
  exact ⟨h.2.2.2.1 rfl, h.2.2.2.2.2.2.2.2 rfl rfl rfl rfl⟩

/-- C5, counterexample: the query `"_"` is embedded unescaped into the
ILIKE pattern, so it matches the one-character title `"a"` although
`"_"` is not a substring of `"a"`: the result is not the set of
case-insensitive substring matches the claim describes. -/
theorem c5_counterexample :
    (Article.search_by_title "_" okEnv
        ⟨true, [⟨1, "a", "", "x", 1, 1⟩], 2, true, true⟩).result
      = [⟨some 1, "a", "", "x", some 1, some 1⟩]
    ∧ containsCI "_" "a" = false := by
  decide

/-- C5, amended: for every query containing none of the ILIKE
metacharacters `%`, `_` and backslash, `search_by_title` returns exactly
the articles whose title contains the query as a case-insensitive
substring, ordered by `created_at` descending, and returns the empty
sequence on failure. -/
theorem c5_search_substring (q : String) (env : Env) (db : DB)
    (hq : noMeta q.toList = true) :
    (db.tableExists = true →
      (Article.search_by_title q okEnv db).result
        = (sortByCreatedDesc (db.rows.filter (fun r => containsCI q r.title))).map rowToArticle
      ∧ (∀ x : Row,
          x ∈ sortByCreatedDesc (db.rows.filter (fun r => containsCI q r.title))
            ↔ x ∈ db.rows ∧ containsCI q x.title = true)
      ∧ (sortByCreatedDesc (db.rows.filter (fun r => containsCI q r.title))).Pairwise
          (fun x y => y.created_at ≤ x.created_at))
    ∧ (env.connFails = true ∨ env.execFails = true ∨ db.tableExists = false →
        (Article.search_by_title q env db).result = []) := by
  have hfilter : db.rows.filter (fun r => titleMatches q r.title)
      = db.rows.filter (fun r => containsCI q r.title) := by
    apply List.filter_congr
    intro r _
    exact titleMatches_eq_containsCI q r.title hq
  constructor
  · intro htab
    refine ⟨?_, ?_, pairwise_sortByCreatedDesc _⟩
    · simp [Article.search_by_title, okEnv, htab, hfilter]
    · intro x
      rw [mem_sortByCreatedDesc, List.mem_filter]
  · intro hfail
    rcases hfail with h | h | h <;>
      simp [Article.search_by_title, h] <;> split_ifs <;> rfl

/-- C5, witness: searching `"ort"` (no metacharacters) over a two-row
table returns exactly the substring matches in `created_at`-descending
order. -/
theorem c5_search_substring_witness :
    (Article.search_by_title "ort" okEnv
        ⟨true, [⟨1, "Quarterly Report", "", "x", 1, 1⟩, ⟨2, "misc", "", "y", 2, 2⟩],
         3, true, true⟩).result
      = (sortByCreatedDesc
          ((⟨true, [⟨1, "Quarterly Report", "", "x", 1, 1⟩, ⟨2, "misc", "", "y", 2, 2⟩],
             3, true, true⟩ : DB).rows.filter
            (fun r => containsCI "ort" r.title))).map rowToArticle := by
  exact ((c5_search_substring "ort" okEnv
    ⟨true, [⟨1, "Quarterly Report", "", "x", 1, 1⟩, ⟨2, "misc", "", "y", 2, 2⟩],
     3, true, true⟩ (by decide)).1 rfl).1

/-- C10: the query is embedded into the ILIKE pattern without escaping
`%` and `_`: searching `"%"` returns every article (the same sequence
`get_all` returns), and titles containing a literal `%` or `_` cannot be
searched for as plain substrings — `"105"` matches the query `"0%"` and
`"a"` matches `"_"` though neither query is a substring of the title. -/
theorem c10_wildcard (db : DB) :
    (db.tableExists = true →
      (Article.search_by_title "%" okEnv db).result = (Article.get_all okEnv db).result)
    ∧ titleMatches "_" "a" = true ∧ containsCI "_" "a" = false
    ∧ titleMatches "0%" "105" = true ∧ containsCI "0%" "105" = false := by
  refine ⟨?_, by decide, by decide, by decide, by decide⟩
  intro htab
  have hall : db.rows.filter (fun r => titleMatches "%" r.title) = db.rows := by
    rw [List.filter_eq_self]
    intro r _
    exact titleMatches_pct_all r.title
  simp [Article.search_by_title, Article.get_all, okEnv, htab, hall]

/-- C10, witness: over a concrete two-row table, searching `"%"` yields
the same result as `get_all`. -/
theorem c10_wildcard_witness :
    (Article.search_by_title "%" okEnv
        ⟨true, [⟨1, "alpha", "", "x", 1, 1⟩, ⟨2, "beta", "", "y", 2, 2⟩],
         3, true, true⟩).result
      = (Article.get_all okEnv
          ⟨true, [⟨1, "alpha", "", "x", 1, 1⟩, ⟨2, "beta", "", "y", 2, 2⟩],
           3, true, true⟩).result := by
  exact (c10_wildcard
    ⟨true, [⟨1, "alpha", "", "x", 1, 1⟩, ⟨2, "beta", "", "y", 2, 2⟩],
     3, true, true⟩).1 rfl


/-- C3: the invariant `updated_at >= created_at` holds at all times (it
is preserved by every well-timed trace of mutating repository calls);
an insert stamps both fields with the same server timestamp; a
successful update rewrites exactly the targeted row, setting its
`updated_at` to the strictly later statement timestamp and leaving its
`created_at` unchanged. -/
theorem c3_timestamps :
    (∀ (db : DB) (t0 : Nat) (tr : List (MutOp × Nat)),
      DBInv db → TimesLE db t0 → WellTimed t0 tr → DBInv (runOps tr db))
    ∧ (∀ (a : Article) (env : Env) (t : Nat) (db : DB) (j : Nat),
        truthyId a = false → (Article.save a env t db).result = some j →
        (Article.save a env t db).db.rows
          = db.rows ++ [⟨db.nextId, a.title, a.raw_content, a.direct_link, t, t⟩]
        ∧ (Article.save a env t db).art.created_at = some t
        ∧ (Article.save a env t db).art.updated_at = some t)
    ∧ (∀ (a : Article) (env : Env) (t : Nat) (db : DB) (i : Nat) (r : Row),
        a.id = some i → i ≠ 0 → (Article.save a env t db).result = some i →
        r ∈ db.rows → r.id = i → r.updated_at < t →
        (updatedRow a t r).created_at = r.created_at
        ∧ (updatedRow a t r).updated_at = t
        ∧ r.updated_at < (updatedRow a t r).updated_at
        ∧ updatedRow a t r ∈ (Article.save a env t db).db.rows) := by
  refine ⟨?_, ?_, ?_⟩
  · intro db t0 tr hInv hT hWT
    exact runOps_inv tr db t0 hInv hT hWT
  · intro a env t db j hfalsy hres
    rw [Article.save, hfalsy] at hres ⊢
    simp only [Bool.false_eq_true, if_false, ite_false] at hres ⊢
    unfold Article._insert at hres ⊢
    by_cases h1 : env.connFails
    · simp [h1] at hres
    · by_cases h2 : (env.execFails || insertErr a db) = true
      · simp [h1, h2] at hres
      · simp [h1, h2]
  · intro a env t db i r ha hi hres hr hrid hrt
    have ht : truthyId a = true := by simp [truthyId, ha, hi]
    rw [Article.save, ht] at hres ⊢
    simp only [if_true, ite_true] at hres ⊢
    unfold Article._update at hres ⊢
    simp only [ha, Option.getD_some] at hres ⊢
    by_cases h1 : env.connFails
    · simp [h1] at hres
    · by_cases h2 : (env.execFails || !db.tableExists) = true
      · simp [h1, h2] at hres
      · by_cases h3 : (db.rows.any (fun rr => rr.id == i)) = true
        · by_cases h4 : updateErr a i db = true
          · simp [h1, h2, h3, h4] at hres
          · simp only [h1, h2, h3, h4, Bool.false_eq_true, if_false, if_true,
              ite_false, ite_true]
            refine ⟨rfl, rfl, ?_, ?_⟩
            · simp [updatedRow]
              omega
            · rw [List.mem_map]
              refine ⟨r, hr, ?_⟩
              simp [hrid]
        · simp [h1, h2, h3] at hres

/-- C3, witness: the trace invariant at a concrete well-timed trace
(an insert at time 5 then an update at time 9 over an initially
populated table), and the insert/update timestamp facts at concrete
calls. -/
theorem c3_timestamps_witness :
    DBInv (runOps
      [(.saveOp ⟨none, "t", "r", "l2", none, none⟩ okEnv, 5),
       (.saveOp ⟨some 1, "t2", "r2", "l3", none, none⟩ okEnv, 9)]
      ⟨true, [⟨1, "a", "b", "c", 2, 3⟩], 2, true, true⟩)
    ∧ (Article.save ⟨none, "t", "r", "l2", none, none⟩ okEnv 5
        ⟨true, [⟨1, "a", "b", "c", 2, 3⟩], 2, true, true⟩).art.created_at = some 5
    ∧ (updatedRow ⟨some 1, "t2", "r2", "l3", none, none⟩ 9 ⟨1, "a", "b", "c", 2, 3⟩).created_at
        = (⟨1, "a", "b", "c", 2, 3⟩ : Row).created_at
    ∧ (3 : Nat) < (updatedRow ⟨some 1, "t2", "r2", "l3", none, none⟩ 9
        ⟨1, "a", "b", "c", 2, 3⟩).updated_at := by
  have h := c3_timestamps
  refine ⟨?_, ?_, ?_, ?_⟩
  · exact h.1 ⟨true, [⟨1, "a", "b", "c", 2, 3⟩], 2, true, true⟩ 4
      [(.saveOp ⟨none, "t", "r", "l2", none, none⟩ okEnv, 5),
       (.saveOp ⟨some 1, "t2", "r2", "l3", none, none⟩ okEnv, 9)]
      (by decide) (by decide) (by decide)
  · exact (h.2.1 ⟨none, "t", "r", "l2", none, none⟩ okEnv 5
      ⟨true, [⟨1, "a", "b", "c", 2, 3⟩], 2, true, true⟩ 2 rfl (by decide)).2.1
  · exact (h.2.2 ⟨some 1, "t2", "r2", "l3", none, none⟩ okEnv 9
      ⟨true, [⟨1, "a", "b", "c", 2, 3⟩], 2, true, true⟩ 1 ⟨1, "a", "b", "c", 2, 3⟩
      rfl (by decide) (by decide) (by decide) rfl (by decide)).1
  · exact (h.2.2 ⟨some 1, "t2", "r2", "l3", none, none⟩ okEnv 9
      ⟨true, [⟨1, "a", "b", "c", 2, 3⟩], 2, true, true⟩ 1 ⟨1, "a", "b", "c", 2, 3⟩
      rfl (by decide) (by decide) (by decide) rfl (by decide)).2.2.1
